import Mathlib

/-!
# Verification of the dose2gmsh core (3ddose → Gmsh / CSV converter)

A shallow embedding of `src/lib.rs` of the `dose2gmsh` crate.  Rust `f64`
values are modelled as exact rationals (`ℚ`); every arithmetic operation the
program performs on them ((a+b)/2, literal decimal parsing) is exact on the
inputs the claims mention, so the rational model agrees with the binary
floating-point values there.  Rust `usize` is modelled as `Nat` (the grids at
hand are far below 2^64, and the source performs no wrapping arithmetic).

Output files are modelled structurally: a written line such as
`"{id} {x} {y} {z}"` becomes the tuple `(id, x, y, z)`; the fixed marker
lines (`$Nodes`, …) and the fixed element tags (`5 2 0 0`) are common to
every output and are not part of any claim's content, so the model keeps
the variable payload of each block.

Process aborts (Rust `panic!` via `expect`, `unwrap`, `assert!`) are
modelled as the `.error`/`.panic` constructors carrying the panic message;
an `Err` value actually *returned* by `from_3d_dose` (only possible for
`File::open`) is the distinct `.ioError` constructor.
-/

/-- The in-memory grid model, `struct DoseBlock` of `lib.rs`.  Coordinates,
doses and uncertainties are `f64` in the source, modelled as `ℚ`. -/
structure DoseBlock where
  xs : List ℚ
  ys : List ℚ
  zs : List ℚ
  doses : List ℚ
  uncerts : List ℚ
deriving DecidableEq, Repr

namespace DoseBlock

/-- `num_x`: number of voxels in the x-direction, `self.xs.len() - 1`. -/
def num_x (d : DoseBlock) : Nat := d.xs.length - 1

/-- `num_y`: number of voxels in the y-direction, `self.ys.len() - 1`. -/
def num_y (d : DoseBlock) : Nat := d.ys.length - 1

/-- `num_z`: number of voxels in the z-direction, `self.zs.len() - 1`. -/
def num_z (d : DoseBlock) : Nat := d.zs.length - 1

/-- `num_voxels`: total number of mesh voxels. -/
def num_voxels (d : DoseBlock) : Nat := d.num_x * d.num_y * d.num_z

/-- `num_nodes`: total number of mesh nodes,
`self.xs.len() * self.ys.len() * self.zs.len()`. -/
def num_nodes (d : DoseBlock) : Nat := d.xs.length * d.ys.length * d.zs.length

/-- `grid_index`: `[i, j, k]` node list indexing,
`i + self.xs.len() * j + self.xs.len() * self.ys.len() * k`.
This is the spec's `node_index`. -/
def grid_index (d : DoseBlock) (i j k : Nat) : Nat :=
  i + d.xs.length * j + d.xs.length * d.ys.length * k

/-- The flattened voxel index (the closure `voxel_idx` of `write_csv`;
the spec's `voxel_index`): `i + num_x * j + num_x * num_y * k`. -/
def voxel_idx (d : DoseBlock) (i j k : Nat) : Nat :=
  i + d.num_x * j + d.num_x * d.num_y * k

/-- The §3 invariants of the spec's GridModel: at least one voxel per axis
and matching flat field lengths. -/
def invariants (d : DoseBlock) : Prop :=
  2 ≤ d.xs.length ∧ 2 ≤ d.ys.length ∧ 2 ≤ d.zs.length ∧
    d.doses.length = d.num_voxels ∧ d.uncerts.length = d.num_voxels

end DoseBlock

/-! ## The Gmsh writer (`write_gmsh`) -/

namespace DoseBlock

/-- The node block of `write_gmsh`: the triple loop
`for (k, z) in zs { for (j, y) in ys { for (i, x) in xs { … } } }`, each
iteration writing the line `grid_index(i,j,k)+1, x, y, z`. -/
def nodeLines (d : DoseBlock) : List (Nat × ℚ × ℚ × ℚ) :=
  d.zs.enum.flatMap fun kz =>
    d.ys.enum.flatMap fun jy =>
      d.xs.enum.map fun ix =>
        (d.grid_index ix.1 jy.1 kz.1 + 1, ix.2, jy.2, kz.2)

/-- One iteration's cursor motion before the node id is drawn: the two
`dropping` skips guarded by `index != 0 && index % num_x == 0` and
`index != 0 && index % (num_x * num_y) == 0`. -/
def elemStep (d : DoseBlock) (index cur : Nat) : Nat :=
  let cur1 := if index ≠ 0 ∧ index % d.num_x = 0 then cur + 1 else cur
  if index ≠ 0 ∧ index % (d.num_x * d.num_y) = 0 then cur1 + d.xs.length else cur1

/-- The eight corner node ids written for the element whose `0` corner is the
node id `xl`, in the emitted order `xl xr yr yl zl zr yzr yzl`
(`gmsh_y_index` adds `xs.len()`, `gmsh_z_index` adds `xs.len()*ys.len()`). -/
def corners (d : DoseBlock) (xl : Nat) : List Nat :=
  let xr := xl + 1
  let yl := xl + d.xs.length
  let yr := yl + 1
  let zl := xl + d.xs.length * d.ys.length
  let zr := zl + 1
  let yzl := yl + d.xs.length * d.ys.length
  let yzr := yzl + 1
  [xl, xr, yr, yl, zl, zr, yzr, yzl]

/-- The element-emission loop of `write_gmsh`, iterations
`index, index+1, …, index+fuel-1`, walking the node-id cursor
`x_nodes = cur..=num_nodes`.  Returns `none` exactly when
`x_nodes.next().unwrap()` would panic (cursor exhausted, i.e. the next
id after the skips exceeds `num_nodes`); otherwise the list of
`(element id, eight corner node ids)` lines. -/
def elemsFrom (d : DoseBlock) : Nat → Nat → Nat → Option (List (Nat × List Nat))
  | 0, _, _ => some []
  | fuel + 1, index, cur =>
    let xl := d.elemStep index cur
    if xl ≤ d.num_nodes then
      (d.elemsFrom fuel (index + 1) (xl + 1)).map
        fun rest => (index + 1, d.corners xl) :: rest
    else
      none

/-- The whole element block of `write_gmsh`: `num_voxels` iterations starting
from the fresh cursor `1..=num_nodes`. -/
def write_gmsh_elems (d : DoseBlock) : Option (List (Nat × List Nat)) :=
  d.elemsFrom d.num_voxels 0 1

/-- One `$ElementData` block's value lines (the closure `write_elt_data`):
`(index + 1, val)` for each value of the field. -/
def eltDataLines (data : List ℚ) : List (Nat × ℚ) :=
  data.enum.map fun iv => (iv.1 + 1, iv.2)

/-- The variable payload of the `.msh` file written by `write_gmsh`:
node block, element block, and the two `$ElementData` blocks
(dose, then uncertainty). -/
structure GmshOutput where
  nodes : List (Nat × ℚ × ℚ × ℚ)
  elems : List (Nat × List Nat)
  doseData : List (Nat × ℚ)
  uncertData : List (Nat × ℚ)
deriving DecidableEq, Repr

/-- `write_gmsh`: fails (returns `none`) exactly when the element loop's
`unwrap` panics; otherwise produces the four variable blocks. -/
def write_gmsh (d : DoseBlock) : Option GmshOutput :=
  (d.write_gmsh_elems).map fun es =>
    { nodes := d.nodeLines
      elems := es
      doseData := eltDataLines d.doses
      uncertData := eltDataLines d.uncerts }

end DoseBlock

/-! ## The CSV writer (`write_csv`) -/

namespace DoseBlock

/-- The closure `calc_centroids`: `cs[i] = (pts[i] + pts[i+1]) / 2` for
`i in 0..pts.len()-1` (indexing is always in range, so the `getD` default
is never read). -/
def calc_centroids (pts : List ℚ) : List ℚ :=
  (List.range (pts.length - 1)).map fun i => (pts.getD i 0 + pts.getD (i + 1) 0) / 2

/-- The header row written by `write_csv`. -/
def csvHeader : String := "xc [cm],yc [cm],zc [cm],Dose [Gy cm2],Uncertainty fraction"

/-- The CSV output: header plus one `(xc, yc, zc, dose, uncert)` row per
voxel, from the triple loop over the centroid lists (z outermost, x
innermost), doses and uncertainties read at `voxel_idx(i, j, k)`. -/
structure CsvOutput where
  header : String
  rows : List (ℚ × ℚ × ℚ × ℚ × ℚ)
deriving DecidableEq, Repr

/-- `write_csv` modelled structurally (`doses[voxel_idx]` is in range for
every invariant-satisfying block, so `getD`'s default is never read). -/
def write_csv (d : DoseBlock) : CsvOutput :=
  { header := csvHeader
    rows :=
      (calc_centroids d.zs).enum.flatMap fun kz =>
        (calc_centroids d.ys).enum.flatMap fun jy =>
          (calc_centroids d.xs).enum.map fun ix =>
            (ix.2, jy.2, kz.2,
              d.doses.getD (d.voxel_idx ix.1 jy.1 kz.1) 0,
              d.uncerts.getD (d.voxel_idx ix.1 jy.1 kz.1) 0) }

end DoseBlock

/-! ## Parsing (`from_3d_dose` and `parse_simple_line`)

The input file is modelled as `Option (List (Option String))`:
the outer `Option` is whether `File::open` succeeds, each line's
`Option` is whether reading that line succeeds (`io::Result<String>`).
-/

/-- Outcome of running `from_3d_dose`: a returned value, a process abort
(Rust panic, with its message), or a returned `Err` (`std::io::Error`). -/
inductive RunResult (α : Type) where
  | ok (val : α)
  | panic (msg : String)
  | ioError
deriving DecidableEq

/-- The message of the bare `assert!(entries.len() == expect_len)` in
`parse_simple_line` — note it does not mention the `title` argument. -/
def assertMsg : String := "assertion failed: entries.len() == expect_len"

/-- The panic message of `l.unwrap()` on a failed line read in the
`lines.map(|l| l.unwrap())` iterator. -/
def unwrapMsg : String := "called Result::unwrap() on an Err value"

/-- Panic message of `num.parse::<T>().expect(title)`: Rust formats it as
`"{title}: {parse error}"`, so it begins with (identifies) the field title. -/
def parseFailMsg (title : String) : String := title ++ ": invalid numeric token"

/-- Character-run comparison: does `pat` start the run `s`? -/
def charsStart : List Char → List Char → Bool
  | _, [] => true
  | [], _ :: _ => false
  | c :: cs, p :: ps => c = p && charsStart cs ps

/-- Does the run `pat` occur anywhere inside the run `s`? -/
def charsContain : List Char → List Char → Bool
  | [], pat => pat.isEmpty
  | c :: cs, pat => charsStart (c :: cs) pat || charsContain cs pat

/-- Substring test used to state that a panic message does (not) identify a
field name. -/
def strContains (s pat : String) : Bool :=
  charsContain s.data pat.data

/-- Pulling the next line: `lines.next().expect(what)` where `lines` maps
`unwrap` over raw read results.  End of input panics with `what`; a failed
read panics with the `unwrap` message. -/
def nextLine (lines : List (Option String)) (what : String) :
    Except String (String × List (Option String)) :=
  match lines with
  | [] => .error what
  | none :: _ => .error unwrapMsg
  | some l :: rest => .ok (l, rest)

/-- Rust's `str::split_whitespace` (the preceding `trim` is subsumed):
maximal runs of non-whitespace characters. -/
def tokenizeAux : List Char → List Char → List (List Char)
  | [], acc => if acc.isEmpty then [] else [acc.reverse]
  | c :: cs, acc =>
    if c.isWhitespace then
      if acc.isEmpty then tokenizeAux cs [] else acc.reverse :: tokenizeAux cs []
    else
      tokenizeAux cs (c :: acc)

/-- `line.trim().split_whitespace()` as a list of tokens. -/
def splitWS (line : String) : List String :=
  (tokenizeAux line.data []).map fun cs => String.mk cs

/-- `usize::from_str` restricted to its plain-digits core: the numeric model
of `num.parse::<usize>()`. -/
def parseNatAux : List Char → Nat → Option Nat
  | [], acc => some acc
  | c :: cs, acc =>
    if c.isDigit then parseNatAux cs (acc * 10 + (c.toNat - 48)) else none

/-- Parse a nonempty all-digit character run. -/
def parseDigits (cs : List Char) : Option Nat :=
  if cs.isEmpty then none else parseNatAux cs 0

/-- Model of `num.parse::<usize>()`. -/
def parseNatTok (s : String) : Option Nat := parseDigits s.data

/-- Split a character run at its first `'.'`, if any. -/
def breakDot : List Char → List Char × Option (List Char)
  | [] => ([], none)
  | c :: rest =>
    if c = '.' then ([], some rest)
    else
      let wf := breakDot rest
      (c :: wf.1, wf.2)

/-- Model of `num.parse::<f64>()` on plain decimal notation
(`[-]digits[.digits]`), exact as a rational.  Every token the claims
mention is of this shape and exactly representable. -/
def parseRatTok (s : String) : Option ℚ :=
  let signed : ℚ × List Char :=
    match s.data with
    | '-' :: rest => (-1, rest)
    | cs => (1, cs)
  let wf := breakDot signed.2
  match wf.2 with
  | none => (parseDigits wf.1).map fun n => signed.1 * n
  | some f =>
    match parseDigits wf.1, parseDigits f with
    | some n, some m => some (signed.1 * ((n : ℚ) + (m : ℚ) / 10 ^ f.length))
    | _, _ => none

/-- The token-mapping part of `parse_simple_line`:
`line.split_whitespace().map(|num| num.parse::<T>().expect(title)).collect()`.
Evaluated left to right; the first unparseable token panics with a message
identifying `title`. -/
def parseTokens {T : Type} (parse : String → Option T) (title : String) :
    List String → Except String (List T)
  | [] => .ok []
  | t :: ts =>
    match parse t with
    | none => .error (parseFailMsg title)
    | some v => (parseTokens parse title ts).map fun vs => v :: vs

/-- `parse_simple_line`: tokenize, parse every token (panicking with the
field title on a bad token), then `assert!(entries.len() == expect_len)`
(panicking with the title-free assertion message on a count mismatch). -/
def parse_simple_line {T : Type} (parse : String → Option T) (line : String)
    (title : String) (expect_len : Nat) : Except String (List T) :=
  match parseTokens parse title (splitWS line) with
  | .error e => .error e
  | .ok entries =>
    if entries.length = expect_len then .ok entries else .error assertMsg

/-- The body of `from_3d_dose` after the file is open: six `lines.next()`
pulls, each fed to `parse_simple_line` with its field title and expected
count.  Any leftover lines are never inspected. -/
def parseLines (lines : List (Option String)) : Except String DoseBlock := do
  let p1 ← nextLine lines "voxel numbers"
  let voxelNums ← parse_simple_line parseNatTok p1.1 "voxel number" 3
  let numX := voxelNums.getD 0 0
  let numY := voxelNums.getD 1 0
  let numZ := voxelNums.getD 2 0
  let p2 ← nextLine p1.2 "x-coordinates"
  let xs ← parse_simple_line parseRatTok p2.1 "x-coordinate" (numX + 1)
  let p3 ← nextLine p2.2 "y-coordinates"
  let ys ← parse_simple_line parseRatTok p3.1 "y-coordinate" (numY + 1)
  let p4 ← nextLine p3.2 "z-coordinates"
  let zs ← parse_simple_line parseRatTok p4.1 "z-coordinate" (numZ + 1)
  let p5 ← nextLine p4.2 "doses"
  let doses ← parse_simple_line parseRatTok p5.1 "dose value" (numX * numY * numZ)
  let p6 ← nextLine p5.2 "uncerts"
  let uncerts ← parse_simple_line parseRatTok p6.1 "uncertainty value" (numX * numY * numZ)
  return ⟨xs, ys, zs, doses, uncerts⟩

/-- `DoseBlock::from_3d_dose`: an `Err` is returned only by `File::open?`
(the `none` input); every failure after that point is a panic inside the
parsing chain. -/
def from_3d_dose (file : Option (List (Option String))) : RunResult DoseBlock :=
  match file with
  | none => .ioError
  | some lines =>
    match parseLines lines with
    | .ok d => .ok d
    | .error m => .panic m

/-! ## Concrete fixtures -/

/-- The single-voxel GridModel of the spec's §8 scenarios. -/
def singleVoxel : DoseBlock :=
  { xs := [0, 1], ys := [0, 1], zs := [0, 1], doses := [5], uncerts := [1/10] }

/-! ## Arithmetic toolkit: flattened 3D indices -/

/-- Uniqueness of the base-`X` digit decomposition used by `grid_index` /
`voxel_idx`: the mod, first div and double div of `i + X*j + X*Y*k`. -/
theorem index_div_facts (X Y : Nat) (hX : 0 < X) (hY : 0 < Y)
    (i j k : Nat) (hi : i < X) (hj : j < Y) :
    (i + X * j + X * Y * k) % X = i ∧
      (i + X * j + X * Y * k) / X = j + Y * k ∧
      (i + X * j + X * Y * k) / (X * Y) = k := by
  have e : i + X * j + X * Y * k = i + X * (j + Y * k) := by ring
  refine ⟨?_, ?_, ?_⟩
  · rw [e, Nat.add_mul_mod_self_left, Nat.mod_eq_of_lt hi]
  · rw [e, Nat.add_mul_div_left _ _ hX, Nat.div_eq_of_lt hi, Nat.zero_add]
  · have e2 : i + X * j + X * Y * k = (i + X * j) + (X * Y) * k := by ring
    have hmul : X * (j + 1) = X * j + X := Nat.mul_succ X j
    have hle : X * (j + 1) ≤ X * Y := Nat.mul_le_mul (Nat.le_refl X) (by omega)
    have hlt : i + X * j < X * Y := by omega
    rw [e2, Nat.add_mul_div_left _ _ (Nat.mul_pos hX hY), Nat.div_eq_of_lt hlt,
      Nat.zero_add]

/-- Every index below `X*Y*Z` decomposes into base-`X`,`Y` digits. -/
theorem decomp3 (X Y Z : Nat) (hX : 0 < X) (hY : 0 < Y) (n : Nat)
    (hn : n < X * Y * Z) :
    n % X < X ∧ (n / X) % Y < Y ∧ n / (X * Y) < Z ∧
      n = n % X + X * ((n / X) % Y) + X * Y * (n / (X * Y)) := by
  refine ⟨Nat.mod_lt _ hX, Nat.mod_lt _ hY, ?_, ?_⟩
  · rw [Nat.div_lt_iff_lt_mul (Nat.mul_pos hX hY)]
    calc n < X * Y * Z := hn
    _ = Z * (X * Y) := by ring
  · have h1 : n % X + X * (n / X) = n := Nat.mod_add_div n X
    have h2 : (n / X) % Y + Y * (n / X / Y) = n / X := Nat.mod_add_div (n / X) Y
    have h3 : n / X / Y = n / (X * Y) := Nat.div_div_eq_div_mul n X Y
    calc n = n % X + X * (n / X) := h1.symm
    _ = n % X + X * ((n / X) % Y + Y * (n / (X * Y))) := by rw [← h3, h2]
    _ = n % X + X * ((n / X) % Y) + X * Y * (n / (X * Y)) := by ring

/-- A flattened voxel index is below the voxel count. -/
theorem flat_index_lt (X Y Z i j k : Nat) (hi : i < X) (hj : j < Y) (hk : k < Z) :
    i + X * j + X * Y * k < X * Y * Z := by
  have e1 : X * (j + 1) = X * j + X := Nat.mul_succ X j
  have e2 : X * Y * (k + 1) = X * Y * k + X * Y := Nat.mul_succ (X * Y) k
  have h2 : X * (j + 1) ≤ X * Y := Nat.mul_le_mul (Nat.le_refl X) (by omega)
  have h3 : X * Y * (k + 1) ≤ X * Y * Z := Nat.mul_le_mul (Nat.le_refl (X * Y)) (by omega)
  omega

/-- Even the largest corner id of an interior voxel's hexahedron stays within
the node count: `grid_index(i,j,k) + xs.len()*ys.len() + xs.len() + 2` (which
is the 1-indexed `yzr` corner + 1) is at most `num_nodes`. -/
theorem grid_index_corner_bound (d : DoseBlock) (nx ny nz : Nat)
    (hx : d.xs.length = nx + 1) (hy : d.ys.length = ny + 1)
    (hz : d.zs.length = nz + 1)
    (i j k : Nat) (hi : i < nx) (hj : j < ny) (hk : k < nz) :
    d.grid_index i j k + d.xs.length * d.ys.length + d.xs.length + 2 ≤
      d.num_nodes := by
  simp only [DoseBlock.grid_index, DoseBlock.num_nodes, hx, hy, hz]
  have e1 : (nx + 1) * (j + 1) = (nx + 1) * j + (nx + 1) := Nat.mul_succ _ j
  have e2 : (nx + 1) * (ny + 1) * (k + 1) = (nx + 1) * (ny + 1) * k + (nx + 1) * (ny + 1) :=
    Nat.mul_succ _ k
  have e3 : (nx + 1) * (ny + 1) = (nx + 1) * ny + (nx + 1) := Nat.mul_succ _ ny
  have e4 : (nx + 1) * (ny + 1) * (nz + 1) = (nx + 1) * (ny + 1) * nz + (nx + 1) * (ny + 1) :=
    Nat.mul_succ _ nz
  have h2 : (nx + 1) * (j + 1) ≤ (nx + 1) * ny :=
    Nat.mul_le_mul (Nat.le_refl _) (by omega)
  have h3 : (nx + 1) * (ny + 1) * (k + 1) ≤ (nx + 1) * (ny + 1) * nz :=
    Nat.mul_le_mul (Nat.le_refl _) (by omega)
  omega

/-! ## The cursor-stepping element loop: closed form -/

/-- Closed form of the node id drawn by `x_nodes.next()` at element-loop
iteration `idx` (0-indexed): the initial id 1, plus one per previous draw,
plus one per crossed row boundary, plus `nx+1` per crossed plane boundary. -/
def xlClosed (nx ny idx : Nat) : Nat :=
  1 + idx + idx / nx + (nx + 1) * (idx / (nx * ny))

/-- Cursor state (next id to be drawn) entering iteration `idx`, before that
iteration's skips. -/
def curBefore (nx ny : Nat) : Nat → Nat
  | 0 => 1
  | idx + 1 => xlClosed nx ny idx + 1

/-- One iteration's skip arithmetic agrees with the closed form. -/
theorem elemStep_curBefore (d : DoseBlock) (nx ny : Nat)
    (hx : d.xs.length = nx + 1) (hy : d.ys.length = ny + 1) (idx : Nat) :
    d.elemStep idx (curBefore nx ny idx) = xlClosed nx ny idx := by
  have hnum_x : d.num_x = nx := by simp [DoseBlock.num_x, hx]
  have hnum_y : d.num_y = ny := by simp [DoseBlock.num_y, hy]
  cases idx with
  | zero =>
    simp [DoseBlock.elemStep, curBefore, xlClosed]
  | succ n =>
    simp only [DoseBlock.elemStep, curBefore, hnum_x, hnum_y, hx, ne_eq,
      Nat.succ_ne_zero, not_false_iff, true_and]
    by_cases h1 : (n + 1) % nx = 0 <;> by_cases h2 : (n + 1) % (nx * ny) = 0 <;>
      simp only [h1, h2, if_true, if_false, xlClosed]
    · rw [Nat.succ_div_of_dvd (Nat.dvd_iff_mod_eq_zero.mpr h1),
        Nat.succ_div_of_dvd (Nat.dvd_iff_mod_eq_zero.mpr h2)]
      ring
    · rw [Nat.succ_div_of_dvd (Nat.dvd_iff_mod_eq_zero.mpr h1),
        Nat.succ_div_of_not_dvd (fun hd => h2 (Nat.dvd_iff_mod_eq_zero.mp hd))]
      ring
    · rw [Nat.succ_div_of_not_dvd (fun hd => h1 (Nat.dvd_iff_mod_eq_zero.mp hd)),
        Nat.succ_div_of_dvd (Nat.dvd_iff_mod_eq_zero.mpr h2)]
      ring
    · rw [Nat.succ_div_of_not_dvd (fun hd => h1 (Nat.dvd_iff_mod_eq_zero.mp hd)),
        Nat.succ_div_of_not_dvd (fun hd => h2 (Nat.dvd_iff_mod_eq_zero.mp hd))]
      ring

/-- The element loop, started at iteration `start` with the matching cursor
state, runs to completion (no `unwrap` panic) and draws exactly the
closed-form node ids, provided those stay within the cursor's range. -/
theorem elemsFrom_spec (d : DoseBlock) (nx ny : Nat)
    (hx : d.xs.length = nx + 1) (hy : d.ys.length = ny + 1) :
    ∀ fuel start,
      (∀ t, t < start + fuel → xlClosed nx ny t ≤ d.num_nodes) →
      ∃ es, d.elemsFrom fuel start (curBefore nx ny start) = some es ∧
        es.length = fuel ∧
        ∀ r, r < fuel →
          es[r]? = some (start + r + 1, d.corners (xlClosed nx ny (start + r))) := by
  intro fuel
  induction fuel with
  | zero =>
    intro start _
    exact ⟨[], rfl, rfl, fun r hr => absurd hr (Nat.not_lt_zero r)⟩
  | succ n ih =>
    intro start hbound
    have hstep := elemStep_curBefore d nx ny hx hy start
    have hguard : xlClosed nx ny start ≤ d.num_nodes :=
      hbound start (by omega)
    obtain ⟨es', h1, h2, h3⟩ := ih (start + 1) (fun t ht => hbound t (by omega))
    have hcur : curBefore nx ny (start + 1) = xlClosed nx ny start + 1 := rfl
    rw [hcur] at h1
    refine ⟨(start + 1, d.corners (xlClosed nx ny start)) :: es', ?_, by simp [h2], ?_⟩
    · simp only [DoseBlock.elemsFrom, hstep, if_pos hguard, h1]
      rfl
    · intro r hr
      cases r with
      | zero => simp
      | succ m =>
        have hm := h3 m (by omega)
        have harr : start + 1 + m = start + (m + 1) := by omega
        rw [harr] at hm
        simpa using hm

/-- At the flattened voxel index `i + nx*j + nx*ny*k`, the closed-form cursor
value is exactly the 1-indexed base corner `grid_index(i,j,k) + 1`. -/
theorem xlClosed_eq_grid_index (d : DoseBlock) (nx ny : Nat)
    (hx : d.xs.length = nx + 1) (hy : d.ys.length = ny + 1)
    (hnx : 0 < nx) (hny : 0 < ny)
    (i j k : Nat) (hi : i < nx) (hj : j < ny) :
    xlClosed nx ny (i + nx * j + nx * ny * k) = d.grid_index i j k + 1 := by
  obtain ⟨_, hdiv1, hdiv2⟩ := index_div_facts nx ny hnx hny i j k hi hj
  rw [xlClosed, hdiv1, hdiv2, DoseBlock.grid_index, hx, hy]
  ring

/-- Full element block: for every grid with at least one voxel per axis the
loop completes with `num_voxels` lines, the `r`-th line being element id
`r+1` with the corners drawn at the closed-form cursor value. -/
theorem write_gmsh_elems_spec (d : DoseBlock) (nx ny nz : Nat)
    (hx : d.xs.length = nx + 1) (hy : d.ys.length = ny + 1)
    (hz : d.zs.length = nz + 1)
    (hnx : 0 < nx) (hny : 0 < ny) :
    ∃ es, d.write_gmsh_elems = some es ∧ es.length = d.num_voxels ∧
      ∀ r, r < d.num_voxels →
        es[r]? = some (r + 1, d.corners (xlClosed nx ny r)) := by
  have hnv : d.num_voxels = nx * ny * nz := by
    simp [DoseBlock.num_voxels, DoseBlock.num_x, DoseBlock.num_y, DoseBlock.num_z,
      hx, hy, hz]
  have hbound : ∀ t, t < 0 + d.num_voxels → xlClosed nx ny t ≤ d.num_nodes := by
    intro t ht
    rw [Nat.zero_add, hnv] at ht
    obtain ⟨hi, hj, hk, heq⟩ := decomp3 nx ny nz hnx hny t ht
    have hxl := xlClosed_eq_grid_index d nx ny hx hy hnx hny
      (t % nx) ((t / nx) % ny) (t / (nx * ny)) hi hj
    rw [← heq] at hxl
    have hcb := grid_index_corner_bound d nx ny nz hx hy hz
      (t % nx) ((t / nx) % ny) (t / (nx * ny)) hi hj hk
    omega
  obtain ⟨es, h1, h2, h3⟩ := elemsFrom_spec d nx ny hx hy d.num_voxels 0 hbound
  refine ⟨es, ?_, h2, ?_⟩
  · rw [DoseBlock.write_gmsh_elems]
    have : curBefore nx ny 0 = 1 := rfl
    rw [← this]
    exact h1
  · intro r hr
    have := h3 r hr
    simpa using this

/-- The eight corner ids drawn at base corner `b` (so cursor value `b+1`),
written with the claim's closed-form offsets. -/
theorem corners_closed (d : DoseBlock) (nx ny : Nat)
    (hx : d.xs.length = nx + 1) (hy : d.ys.length = ny + 1) (b : Nat) :
    d.corners (b + 1) =
      [b + 1, b + 2, b + (nx + 1) + 2, b + (nx + 1) + 1,
        b + (nx + 1) * (ny + 1) + 1, b + (nx + 1) * (ny + 1) + 2,
        b + (nx + 1) * (ny + 1) + (nx + 1) + 2,
        b + (nx + 1) * (ny + 1) + (nx + 1) + 1] := by
  simp only [DoseBlock.corners, hx, hy, List.cons.injEq, and_true, true_and]
  omega

/-- The eight corner ids of any element are pairwise distinct (grids with at
least one voxel per axis). -/
theorem corners_nodup (d : DoseBlock) (xl : Nat)
    (hX : 2 ≤ d.xs.length) (hY : 2 ≤ d.ys.length) :
    (d.corners xl).Nodup := by
  have hW : d.xs.length + 2 ≤ d.xs.length * d.ys.length := by
    have := Nat.mul_le_mul (Nat.le_refl d.xs.length) hY
    omega
  simp only [DoseBlock.corners, List.nodup_cons, List.mem_cons, List.mem_singleton,
    List.not_mem_nil, or_false, List.nodup_nil, and_true, true_and, not_or,
    not_false_iff]
  omega

/-- All eight corner ids lie in `1..=num_nodes` whenever the largest one
does. -/
theorem corners_range (d : DoseBlock) (xl : Nat) (hlb : 1 ≤ xl)
    (hub : xl + d.xs.length * d.ys.length + d.xs.length + 1 ≤ d.num_nodes) :
    ∀ n ∈ d.corners xl, 1 ≤ n ∧ n ≤ d.num_nodes := by
  intro n hn
  simp only [DoseBlock.corners, List.mem_cons, List.mem_singleton,
    List.not_mem_nil, or_false] at hn
  omega

/-! ## Claim C1 -/

/-- **C1**: for every GridModel satisfying the §3 invariants, the
cursor-stepping element emission in `write_gmsh` is equivalent to the
closed-form corner computation: the element emitted for voxel `(i,j,k)`
(found at position `voxel_idx(i,j,k)` of the emission sequence, i.e. the
voxels are visited in x-fastest/y-next/z-slowest order) has element id
`voxel_idx(i,j,k) + 1` and writes, in output order, the eight 1-indexed
corner node ids `base+1, base+2, base+(nx+1)+2, base+(nx+1)+1,
base+(nx+1)*(ny+1)+1, base+(nx+1)*(ny+1)+2, base+(nx+1)*(ny+1)+(nx+1)+2,
base+(nx+1)*(ny+1)+(nx+1)+1` where `base = grid_index(i,j,k)`. -/
theorem c1_cursor_matches_closed_form (d : DoseBlock) (nx ny nz : Nat)
    (hx : d.xs.length = nx + 1) (hy : d.ys.length = ny + 1)
    (hz : d.zs.length = nz + 1)
    (hnx : 0 < nx) (hny : 0 < ny) (hnz : 0 < nz)
    (i j k : Nat) (hi : i < nx) (hj : j < ny) (hk : k < nz) :
    ∃ es, d.write_gmsh_elems = some es ∧ es.length = d.num_voxels ∧
      es[d.voxel_idx i j k]? = some (d.voxel_idx i j k + 1,
        [d.grid_index i j k + 1,
          d.grid_index i j k + 2,
          d.grid_index i j k + (nx + 1) + 2,
          d.grid_index i j k + (nx + 1) + 1,
          d.grid_index i j k + (nx + 1) * (ny + 1) + 1,
          d.grid_index i j k + (nx + 1) * (ny + 1) + 2,
          d.grid_index i j k + (nx + 1) * (ny + 1) + (nx + 1) + 2,
          d.grid_index i j k + (nx + 1) * (ny + 1) + (nx + 1) + 1]) := by
  obtain ⟨es, he, hlen, hget⟩ := write_gmsh_elems_spec d nx ny nz hx hy hz hnx hny
  have hvidx : d.voxel_idx i j k = i + nx * j + nx * ny * k := by
    simp [DoseBlock.voxel_idx, DoseBlock.num_x, DoseBlock.num_y, hx, hy]
  have hnv : d.num_voxels = nx * ny * nz := by
    simp [DoseBlock.num_voxels, DoseBlock.num_x, DoseBlock.num_y, DoseBlock.num_z,
      hx, hy, hz]
  have hlt : d.voxel_idx i j k < d.num_voxels := by
    rw [hvidx, hnv]
    exact flat_index_lt nx ny nz i j k hi hj hk
  refine ⟨es, he, hlen, ?_⟩
  have hline := hget _ hlt
  rw [hvidx] at hline ⊢
  rw [hline, xlClosed_eq_grid_index d nx ny hx hy hnx hny i j k hi hj,
    corners_closed d nx ny hx hy]

/-- Witness for C1: the single-voxel grid, voxel `(0,0,0)`. -/
theorem c1_cursor_matches_closed_form_witness :
    ∃ es, singleVoxel.write_gmsh_elems = some es ∧
      es.length = singleVoxel.num_voxels ∧
      es[singleVoxel.voxel_idx 0 0 0]? = some (singleVoxel.voxel_idx 0 0 0 + 1,
        [singleVoxel.grid_index 0 0 0 + 1,
          singleVoxel.grid_index 0 0 0 + 2,
          singleVoxel.grid_index 0 0 0 + (1 + 1) + 2,
          singleVoxel.grid_index 0 0 0 + (1 + 1) + 1,
          singleVoxel.grid_index 0 0 0 + (1 + 1) * (1 + 1) + 1,
          singleVoxel.grid_index 0 0 0 + (1 + 1) * (1 + 1) + 2,
          singleVoxel.grid_index 0 0 0 + (1 + 1) * (1 + 1) + (1 + 1) + 2,
          singleVoxel.grid_index 0 0 0 + (1 + 1) * (1 + 1) + (1 + 1) + 1]) :=
  c1_cursor_matches_closed_form singleVoxel 1 1 1 rfl rfl rfl
    (by decide) (by decide) (by decide) 0 0 0 (by decide) (by decide) (by decide)

/-! ## Claim C2 -/

/-- **C2**: for every GridModel satisfying the §3 invariants, element
emission cannot fail: the node-id cursor is never exhausted over all
`num_voxels` iterations (`x_nodes.next().unwrap()` never panics — the loop
returns `some` with one line per voxel), and every emitted element's eight
corner node ids are pairwise distinct and each lies in `1..=num_nodes`. -/
theorem c2_element_emission_safe (d : DoseBlock) (nx ny nz : Nat)
    (hx : d.xs.length = nx + 1) (hy : d.ys.length = ny + 1)
    (hz : d.zs.length = nz + 1)
    (hnx : 0 < nx) (hny : 0 < ny) (hnz : 0 < nz) :
    ∃ es, d.write_gmsh_elems = some es ∧ es.length = d.num_voxels ∧
      ∀ e ∈ es, e.2.Nodup ∧ ∀ n ∈ e.2, 1 ≤ n ∧ n ≤ d.num_nodes := by
  obtain ⟨es, he, hlen, hget⟩ := write_gmsh_elems_spec d nx ny nz hx hy hz hnx hny
  have hnv : d.num_voxels = nx * ny * nz := by
    simp [DoseBlock.num_voxels, DoseBlock.num_x, DoseBlock.num_y, DoseBlock.num_z,
      hx, hy, hz]
  refine ⟨es, he, hlen, ?_⟩
  intro e hmem
  obtain ⟨r, hr⟩ := List.mem_iff_getElem?.mp hmem
  have hrlt : r < d.num_voxels := by
    obtain ⟨hlt, -⟩ := List.getElem?_eq_some_iff.mp hr
    omega
  have hline := hget r hrlt
  rw [hline] at hr
  have he2 : e = (r + 1, d.corners (xlClosed nx ny r)) := (Option.some.injEq _ _).mp hr.symm
  obtain ⟨hi, hj, hk, heq⟩ := decomp3 nx ny nz hnx hny r (by omega)
  have hxl := xlClosed_eq_grid_index d nx ny hx hy hnx hny
    (r % nx) ((r / nx) % ny) (r / (nx * ny)) hi hj
  rw [← heq] at hxl
  have hcb := grid_index_corner_bound d nx ny nz hx hy hz
    (r % nx) ((r / nx) % ny) (r / (nx * ny)) hi hj hk
  rw [he2]
  constructor
  · exact corners_nodup d _ (by omega) (by omega)
  · exact corners_range d _ (by omega) (by omega)

/-- Witness for C2: the single-voxel grid. -/
theorem c2_element_emission_safe_witness :
    ∃ es, singleVoxel.write_gmsh_elems = some es ∧
      es.length = singleVoxel.num_voxels ∧
      ∀ e ∈ es, e.2.Nodup ∧ ∀ n ∈ e.2, 1 ≤ n ∧ n ≤ singleVoxel.num_nodes :=
  c2_element_emission_safe singleVoxel 1 1 1 rfl rfl rfl
    (by decide) (by decide) (by decide)

/-! ## Claim C3 -/

/-- Base-`X` digit uniqueness for a two-digit decomposition. -/
theorem two_digit_inj (X : Nat) (hX : 0 < X) (i i' a a' : Nat)
    (hi : i < X) (hi' : i' < X) (h : i + X * a = i' + X * a') :
    i = i' ∧ a = a' := by
  have h1 : (i + X * a) % X = i := by
    rw [Nat.add_mul_mod_self_left, Nat.mod_eq_of_lt hi]
  have h2 : (i' + X * a') % X = i' := by
    rw [Nat.add_mul_mod_self_left, Nat.mod_eq_of_lt hi']
  have hii : i = i' := by rw [← h1, h, h2]
  refine ⟨hii, ?_⟩
  have hXa : X * a = X * a' := by omega
  exact Nat.eq_of_mul_eq_mul_left hX hXa

/-- **C3**: `grid_index` (the spec's `node_index`), restricted to
`0 ≤ i ≤ nx`, `0 ≤ j ≤ ny`, `0 ≤ k ≤ nz` (with `nx = len(xs)-1` etc.), is a
bijection onto `{0 .. node_count-1}` where
`node_count = (nx+1)*(ny+1)*(nz+1) = num_nodes()`: it maps into the range,
is injective on the domain, and every value in the range is attained. -/
theorem c3_grid_index_bijection (d : DoseBlock) (nx ny nz : Nat)
    (hx : d.xs.length = nx + 1) (hy : d.ys.length = ny + 1)
    (hz : d.zs.length = nz + 1) :
    d.num_nodes = (nx + 1) * (ny + 1) * (nz + 1) ∧
      (∀ i j k, i ≤ nx → j ≤ ny → k ≤ nz → d.grid_index i j k < d.num_nodes) ∧
      (∀ i j k i' j' k', i ≤ nx → j ≤ ny → k ≤ nz →
        i' ≤ nx → j' ≤ ny → k' ≤ nz →
        d.grid_index i j k = d.grid_index i' j' k' →
        i = i' ∧ j = j' ∧ k = k') ∧
      (∀ n, n < d.num_nodes →
        ∃ i j k, i ≤ nx ∧ j ≤ ny ∧ k ≤ nz ∧ d.grid_index i j k = n) := by
  have hnn : d.num_nodes = (nx + 1) * (ny + 1) * (nz + 1) := by
    simp [DoseBlock.num_nodes, hx, hy, hz]
  refine ⟨hnn, ?_, ?_, ?_⟩
  · intro i j k hi hj hk
    rw [hnn]
    simp only [DoseBlock.grid_index, hx, hy]
    exact flat_index_lt (nx + 1) (ny + 1) (nz + 1) i j k (by omega) (by omega) (by omega)
  · intro i j k i' j' k' hi hj hk hi' hj' hk' h
    simp only [DoseBlock.grid_index, hx, hy] at h
    have e : ∀ a b c : Nat,
        a + (nx + 1) * b + (nx + 1) * (ny + 1) * c = a + (nx + 1) * (b + (ny + 1) * c) := by
      intro a b c; ring
    rw [e i j k, e i' j' k'] at h
    obtain ⟨hii, hrest⟩ := two_digit_inj (nx + 1) (by omega) i i' _ _
      (by omega) (by omega) h
    obtain ⟨hjj, hkk⟩ := two_digit_inj (ny + 1) (by omega) j j' k k'
      (by omega) (by omega) hrest
    exact ⟨hii, hjj, hkk⟩
  · intro n hn
    rw [hnn] at hn
    obtain ⟨hi, hj, hk, heq⟩ := decomp3 (nx + 1) (ny + 1) (nz + 1)
      (by omega) (by omega) n hn
    refine ⟨n % (nx + 1), (n / (nx + 1)) % (ny + 1), n / ((nx + 1) * (ny + 1)),
      by omega, by omega, by omega, ?_⟩
    simp only [DoseBlock.grid_index, hx, hy]
    omega

/-- Witness for C3: the single-voxel grid (`nx = ny = nz = 1`). -/
theorem c3_grid_index_bijection_witness :
    singleVoxel.num_nodes = (1 + 1) * (1 + 1) * (1 + 1) ∧
      (∀ i j k, i ≤ 1 → j ≤ 1 → k ≤ 1 →
        singleVoxel.grid_index i j k < singleVoxel.num_nodes) ∧
      (∀ i j k i' j' k', i ≤ 1 → j ≤ 1 → k ≤ 1 → i' ≤ 1 → j' ≤ 1 → k' ≤ 1 →
        singleVoxel.grid_index i j k = singleVoxel.grid_index i' j' k' →
        i = i' ∧ j = j' ∧ k = k') ∧
      (∀ n, n < singleVoxel.num_nodes →
        ∃ i j k, i ≤ 1 ∧ j ≤ 1 ∧ k ≤ 1 ∧ singleVoxel.grid_index i j k = n) :=
  c3_grid_index_bijection singleVoxel 1 1 1 rfl rfl rfl

/-! ## Claim C4 -/

/-- **C4**: for the single-voxel GridModel (`xs = ys = zs = [0.0, 1.0]`,
`doses = [5.0]`, `uncerts = [0.1]`), `write_gmsh` succeeds and its mesh
output has exactly 8 node lines, exactly one element line whose eight corner
ids are `1, 2, 4, 3, 5, 6, 8, 7` in that order, and a dose `$ElementData`
block whose single value line is `(1, 5.0)` (the model keeps the value, not
its decimal rendering). -/
theorem c4_single_voxel_gmsh :
    ∃ out, singleVoxel.write_gmsh = some out ∧
      out.nodes.length = 8 ∧
      out.elems = [(1, [1, 2, 4, 3, 5, 6, 8, 7])] ∧
      out.doseData = [(1, 5)] :=
  ⟨_, rfl, rfl, rfl, rfl⟩

/-! ## Inversion lemmas for the parsing chain -/

/-- Inverting a successful `Except` bind. -/
theorem except_bind_ok {α β : Type} {e : Except String α}
    {f : α → Except String β} {b : β} (h : e >>= f = .ok b) :
    ∃ a, e = .ok a ∧ f a = .ok b := by
  cases e with
  | error m => exact absurd h (by simp [Bind.bind, Except.bind])
  | ok a => exact ⟨a, rfl, by simpa [Bind.bind, Except.bind] using h⟩

/-- A successful `nextLine` pins down the head of the line list. -/
theorem nextLine_ok {lines : List (Option String)} {what l : String}
    {rest : List (Option String)} (h : nextLine lines what = .ok (l, rest)) :
    lines = some l :: rest := by
  match lines with
  | [] => exact absurd h (by simp [nextLine])
  | none :: tl => exact absurd h (by simp [nextLine])
  | some s :: tl =>
    simp only [nextLine, Except.ok.injEq, Prod.mk.injEq] at h
    rw [h.1, h.2]

/-- A successful `parse_simple_line` returns exactly `expect_len` entries
(the `assert!`). -/
theorem parse_simple_line_length {T : Type} {parse : String → Option T}
    {line title : String} {n : Nat} {entries : List T}
    (h : parse_simple_line parse line title n = .ok entries) :
    entries.length = n := by
  unfold parse_simple_line at h
  split at h
  · exact absurd h (by simp)
  · split at h
    · next heq => cases h; exact heq
    · exact absurd h (by simp)

/-- Bind of an `ok` value reduces. -/
theorem except_ok_bind {α β : Type} (a : α) (f : α → Except String β) :
    (Except.ok a : Except String α) >>= f = f a := rfl

/-- Full inversion of a successful `parseLines` run: the input must present
six readable lines, each parsing with the exact expected token count, and
the result's fields are exactly the parsed lists. -/
theorem parseLines_ok_inv {lines : List (Option String)} {d : DoseBlock}
    (h : parseLines lines = .ok d) :
    ∃ l1 l2 l3 l4 l5 l6 rest vns,
      lines = some l1 :: some l2 :: some l3 :: some l4 :: some l5 :: some l6 :: rest ∧
      parse_simple_line parseNatTok l1 "voxel number" 3 = .ok vns ∧
      vns.length = 3 ∧
      parse_simple_line parseRatTok l2 "x-coordinate" (vns.getD 0 0 + 1) = .ok d.xs ∧
      parse_simple_line parseRatTok l3 "y-coordinate" (vns.getD 1 0 + 1) = .ok d.ys ∧
      parse_simple_line parseRatTok l4 "z-coordinate" (vns.getD 2 0 + 1) = .ok d.zs ∧
      parse_simple_line parseRatTok l5 "dose value"
        (vns.getD 0 0 * vns.getD 1 0 * vns.getD 2 0) = .ok d.doses ∧
      parse_simple_line parseRatTok l6 "uncertainty value"
        (vns.getD 0 0 * vns.getD 1 0 * vns.getD 2 0) = .ok d.uncerts := by
  unfold parseLines at h
  obtain ⟨p1, hn1, h⟩ := except_bind_ok h
  obtain ⟨l1, r1⟩ := p1
  obtain ⟨vns, hv, h⟩ := except_bind_ok h
  obtain ⟨p2, hn2, h⟩ := except_bind_ok h
  obtain ⟨l2, r2⟩ := p2
  obtain ⟨xs, hxs, h⟩ := except_bind_ok h
  obtain ⟨p3, hn3, h⟩ := except_bind_ok h
  obtain ⟨l3, r3⟩ := p3
  obtain ⟨ys, hys, h⟩ := except_bind_ok h
  obtain ⟨p4, hn4, h⟩ := except_bind_ok h
  obtain ⟨l4, r4⟩ := p4
  obtain ⟨zs, hzs, h⟩ := except_bind_ok h
  obtain ⟨p5, hn5, h⟩ := except_bind_ok h
  obtain ⟨l5, r5⟩ := p5
  obtain ⟨ds, hds, h⟩ := except_bind_ok h
  obtain ⟨p6, hn6, h⟩ := except_bind_ok h
  obtain ⟨l6, r6⟩ := p6
  obtain ⟨us, hus, h⟩ := except_bind_ok h
  have hd : DoseBlock.mk xs ys zs ds us = d := Except.ok.inj h
  subst hd
  have e1 : lines = some l1 :: r1 := nextLine_ok hn1
  have e2 : r1 = some l2 :: r2 := nextLine_ok hn2
  have e3 : r2 = some l3 :: r3 := nextLine_ok hn3
  have e4 : r3 = some l4 :: r4 := nextLine_ok hn4
  have e5 : r4 = some l5 :: r5 := nextLine_ok hn5
  have e6 : r5 = some l6 :: r6 := nextLine_ok hn6
  refine ⟨l1, l2, l3, l4, l5, l6, r6, vns, ?_, hv, parse_simple_line_length hv,
    hxs, hys, hzs, hds, hus⟩
  rw [e1, e2, e3, e4, e5, e6]

/-- A successful `from_3d_dose` means the file opened and the six-line
parse chain succeeded. -/
theorem from_3d_dose_ok_inv {file : Option (List (Option String))} {d : DoseBlock}
    (h : from_3d_dose file = .ok d) :
    ∃ lines, file = some lines ∧ parseLines lines = .ok d := by
  cases file with
  | none => exact absurd h (by simp [from_3d_dose])
  | some lines =>
    refine ⟨lines, rfl, ?_⟩
    have h2 : (match parseLines lines with
      | Except.ok d2 => RunResult.ok d2
      | Except.error m => RunResult.panic m) = .ok d := h
    cases hq : parseLines lines with
    | ok d2 =>
      rw [hq] at h2
      exact congrArg Except.ok (RunResult.ok.inj h2)
    | error m =>
      rw [hq] at h2
      exact RunResult.noConfusion h2

/-! ## Claim C5 -/

/-- **C5**: whenever `from_3d_dose` returns successfully, the resulting
GridModel satisfies `len(doses) = len(uncerts) =
(len(xs)-1)*(len(ys)-1)*(len(zs)-1)`, with `len(xs) = nx+1`,
`len(ys) = ny+1`, `len(zs) = nz+1` for the `nx ny nz` read from the first
line.  (The second half of the claim — inputs on which these counts cannot
be established fail — is the contrapositive of this postcondition.) -/
theorem c5_parse_invariants (file : Option (List (Option String))) (d : DoseBlock)
    (h : from_3d_dose file = .ok d) :
    d.doses.length = d.uncerts.length ∧
      d.doses.length = (d.xs.length - 1) * (d.ys.length - 1) * (d.zs.length - 1) ∧
      ∃ nx ny nz, d.xs.length = nx + 1 ∧ d.ys.length = ny + 1 ∧
        d.zs.length = nz + 1 ∧ d.doses.length = nx * ny * nz ∧
        d.uncerts.length = nx * ny * nz ∧
        ∃ l rest, file = some (some l :: rest) ∧
          parse_simple_line parseNatTok l "voxel number" 3 = .ok [nx, ny, nz] := by
  obtain ⟨lines, hfile, heq⟩ := from_3d_dose_ok_inv h
  subst hfile
  obtain ⟨l1, l2, l3, l4, l5, l6, rest, vns, hsh, hv, hlen3, hxs, hys, hzs,
    hds, hus⟩ := parseLines_ok_inv heq
  obtain ⟨nx, ny, nz, hvns⟩ := List.length_eq_three.mp hlen3
  subst hvns
  have hx : d.xs.length = nx + 1 := parse_simple_line_length hxs
  have hy : d.ys.length = ny + 1 := parse_simple_line_length hys
  have hz : d.zs.length = nz + 1 := parse_simple_line_length hzs
  have hdl : d.doses.length = nx * ny * nz := parse_simple_line_length hds
  have hul : d.uncerts.length = nx * ny * nz := parse_simple_line_length hus
  refine ⟨by rw [hdl, hul], ?_, nx, ny, nz, hx, hy, hz, hdl, hul,
    l1, some l2 :: some l3 :: some l4 :: some l5 :: some l6 :: rest,
    by rw [hsh], hv⟩
  rw [hdl, hx, hy, hz]
  simp

/-! ## Parsing fixtures -/

/-- A well-formed single-voxel 3ddose input (six lines). -/
def sampleLines : List (Option String) :=
  [some "1 1 1", some "0.0 1.0", some "0.0 1.0", some "0.0 1.0",
    some "5.0", some "0.1"]

/-- The block parsed from `sampleLines`. -/
def sampleParsed : DoseBlock :=
  match from_3d_dose (some sampleLines) with
  | .ok d => d
  | _ => ⟨[], [], [], [], []⟩

/-- An input whose first line carries a zero voxel count, with every later
line having the matching token count (`nx = 0` means one x-coordinate and
zero dose/uncertainty values). -/
def zeroVoxelLines : List (Option String) :=
  [some "0 1 1", some "0.0", some "0.0 1.0", some "0.0 1.0", some "", some ""]

/-- The block parsed from `zeroVoxelLines`. -/
def zeroVoxelParsed : DoseBlock :=
  match from_3d_dose (some zeroVoxelLines) with
  | .ok d => d
  | _ => ⟨[], [], [], [], []⟩

/-- The spec's §8 malformed input: `nx = 3` but only two x-coordinates. -/
def badXLineInput : List (Option String) :=
  [some "3 1 1", some "0.0 1.0"]

/-- Witness for C5: the single-voxel input. -/
theorem c5_parse_invariants_witness :
    sampleParsed.doses.length = sampleParsed.uncerts.length ∧
      sampleParsed.doses.length =
        (sampleParsed.xs.length - 1) * (sampleParsed.ys.length - 1) *
          (sampleParsed.zs.length - 1) ∧
      ∃ nx ny nz, sampleParsed.xs.length = nx + 1 ∧
        sampleParsed.ys.length = ny + 1 ∧
        sampleParsed.zs.length = nz + 1 ∧
        sampleParsed.doses.length = nx * ny * nz ∧
        sampleParsed.uncerts.length = nx * ny * nz ∧
        ∃ l rest, some sampleLines = some (some l :: rest) ∧
          parse_simple_line parseNatTok l "voxel number" 3 = .ok [nx, ny, nz] :=
  c5_parse_invariants (some sampleLines) sampleParsed rfl

/-! ## Claim C6 (corrected) -/

/-- Counterexample to C6 as stated: `from_3d_dose` accepts an input whose
first line contains a zero voxel count, returning a block with
`len(xs) = 1 < 2` — construction does not fail. -/
theorem c6_counterexample_zero_count_accepted :
    from_3d_dose (some zeroVoxelLines) = .ok zeroVoxelParsed ∧
      zeroVoxelParsed.xs.length = 1 :=
  ⟨rfl, rfl⟩

/-- **C6 (amended)**: `from_3d_dose` performs no positivity validation on the
voxel counts.  Every returned GridModel satisfies only
`len(xs) ≥ 1`, `len(ys) ≥ 1`, `len(zs) ≥ 1` (each being a parsed count plus
one); an input whose first line contains a zero count is accepted whenever
the later lines carry the matching token counts. -/
theorem c6_amended_no_positivity_check (file : Option (List (Option String)))
    (d : DoseBlock) (h : from_3d_dose file = .ok d) :
    1 ≤ d.xs.length ∧ 1 ≤ d.ys.length ∧ 1 ≤ d.zs.length := by
  obtain ⟨lines, hfile, heq⟩ := from_3d_dose_ok_inv h
  obtain ⟨l1, l2, l3, l4, l5, l6, rest, vns, hsh, hv, hlen3, hxs, hys, hzs,
    hds, hus⟩ := parseLines_ok_inv heq
  have hx := parse_simple_line_length hxs
  have hy := parse_simple_line_length hys
  have hz := parse_simple_line_length hzs
  omega

/-- Witness for the amended C6: the zero-count input is accepted and the
returned block has the one-more-than-count lengths. -/
theorem c6_amended_no_positivity_check_witness :
    1 ≤ zeroVoxelParsed.xs.length ∧ 1 ≤ zeroVoxelParsed.ys.length ∧
      1 ≤ zeroVoxelParsed.zs.length :=
  c6_amended_no_positivity_check (some zeroVoxelLines) zeroVoxelParsed rfl

/-! ## Claim C7 (corrected) -/

/-- Counterexample to C7 as stated: the spec's own scenario (an x-coordinate
line with 2 tokens when `nx = 3` requires 4) fails fatally, but with the bare
`assert!` message, which does not identify (contain) "x-coordinate" — the
`title` argument is used only for token *parse* errors, not count errors. -/
theorem c7_counterexample_assert_has_no_field_name :
    from_3d_dose (some badXLineInput) = .panic assertMsg ∧
      strContains assertMsg "x-coordinate" = false :=
  ⟨rfl, by decide⟩

/-- **C7 (amended)**: a line with fewer or more whitespace-separated tokens
than the expected count fails fatally, but with the fixed, title-free
assertion message `assertMsg` (the same for every logical field, hence not
identifying which one); in particular the 2-tokens-when-4-required
x-coordinate scenario panics with that message.  Messages identifying the
field occur only for unparseable tokens. -/
theorem c7_amended_count_mismatch_panics :
    (∀ {T : Type} (parse : String → Option T) (line title : String) (n : Nat)
      (entries : List T),
      parseTokens parse title (splitWS line) = .ok entries →
      entries.length ≠ n →
      parse_simple_line parse line title n = .error assertMsg) ∧
    from_3d_dose (some badXLineInput) = .panic assertMsg ∧
    strContains assertMsg "x-coordinate" = false := by
  refine ⟨?_, rfl, by decide⟩
  intro T parse line title n entries htoks hne
  unfold parse_simple_line
  simp only [htoks]
  rw [if_neg hne]

/-- Witness for the amended C7: a two-token line against an expected count
of four. -/
theorem c7_amended_count_mismatch_panics_witness :
    parse_simple_line parseNatTok "1 2" "x-coordinate" 4 = .error assertMsg ∧
      from_3d_dose (some badXLineInput) = .panic assertMsg :=
  ⟨c7_amended_count_mismatch_panics.1 parseNatTok "1 2" "x-coordinate" 4 [1, 2]
      rfl (by decide),
    c7_amended_count_mismatch_panics.2.1⟩

/-! ## Claim C8 (corrected) -/

/-- The parse chain only ever inspects the six lines it pulls: appending
anything after a successfully parsed input leaves the result unchanged. -/
theorem parseLines_append {lines : List (Option String)} {d : DoseBlock}
    (h : parseLines lines = .ok d) (extra : List (Option String)) :
    parseLines (lines ++ extra) = .ok d := by
  obtain ⟨l1, l2, l3, l4, l5, l6, rest, vns, hsh, hv, hlen3, hxs, hys, hzs,
    hds, hus⟩ := parseLines_ok_inv h
  subst hsh
  unfold parseLines
  simp only [List.cons_append, nextLine, except_ok_bind, hv, hxs, hys, hzs,
    hds, hus]
  rfl

/-- Counterexample to C8 as stated: the valid single-voxel input with a
seventh trailing line is *accepted* by `from_3d_dose` (same result as
without it), rather than failing. -/
theorem c8_counterexample_trailing_line_accepted :
    from_3d_dose (some sampleLines) = .ok sampleParsed ∧
      from_3d_dose (some (sampleLines ++ [some "trailing junk"])) =
        .ok sampleParsed :=
  ⟨rfl, rfl⟩

/-- **C8 (amended)**: `from_3d_dose` reads exactly six logical lines and
never checks that the input is exhausted: any input whose six lines parse is
accepted, and appending arbitrary trailing lines leaves the result
unchanged (they are ignored, not rejected). -/
theorem c8_amended_trailing_lines_ignored (lines extra : List (Option String))
    (d : DoseBlock) (h : from_3d_dose (some lines) = .ok d) :
    from_3d_dose (some (lines ++ extra)) = .ok d := by
  obtain ⟨lines2, hfile, heq⟩ := from_3d_dose_ok_inv h
  obtain rfl : lines2 = lines := (Option.some.injEq _ _).mp hfile.symm
  show (match parseLines (lines2 ++ extra) with
    | Except.ok d2 => RunResult.ok d2
    | Except.error m => RunResult.panic m) = .ok d
  rw [parseLines_append heq extra]

/-- Witness for the amended C8: the single-voxel input plus a junk line. -/
theorem c8_amended_trailing_lines_ignored_witness :
    from_3d_dose (some (sampleLines ++ [some "trailing junk"])) =
      .ok sampleParsed :=
  c8_amended_trailing_lines_ignored sampleLines [some "trailing junk"]
    sampleParsed rfl

/-! ## Claim C10 -/

/-- **C10**: `from_3d_dose` returns an `Err` (`std::io::Error`) only when
opening the input file fails; on any opened file every outcome is either a
returned GridModel or a panic (read error, missing line, bad token, wrong
token count all abort the process instead of being returned as `Err`). -/
theorem c10_err_only_on_open_failure :
    from_3d_dose none = .ioError ∧
      ∀ lines, (∃ d, from_3d_dose (some lines) = .ok d) ∨
        ∃ m, from_3d_dose (some lines) = .panic m := by
  refine ⟨rfl, ?_⟩
  intro lines
  have hred : from_3d_dose (some lines) = (match parseLines lines with
    | Except.ok d2 => RunResult.ok d2
    | Except.error m => RunResult.panic m) := rfl
  rw [hred]
  cases parseLines lines with
  | ok d => exact Or.inl ⟨d, rfl⟩
  | error m => exact Or.inr ⟨m, rfl⟩

/-! ## Indexing the CSV triple loop -/

/-- Length of an `enumFrom`-driven flatMap whose blocks all have length `m`. -/
theorem enumFrom_flatMap_length {α γ : Type} (g : Nat → α → List γ) (m : Nat)
    (l : List α) (s : Nat) (h : ∀ j b, (g j b).length = m) :
    ((l.enumFrom s).flatMap fun p => g p.1 p.2).length = l.length * m := by
  induction l generalizing s with
  | nil => simp
  | cons a t ih =>
    simp only [List.enumFrom_cons, List.flatMap_cons, List.length_append, h,
      ih (s + 1), List.length_cons]
    ring

/-- Element `m*j + r` of an `enumFrom`-driven flatMap with constant block
length `m` is element `r` of block `j`. -/
theorem enumFrom_flatMap_getElem {α γ : Type} (g : Nat → α → List γ) (m : Nat)
    (dfl : α) (l : List α) (s j r : Nat)
    (hglen : ∀ j b, (g j b).length = m)
    (hj : j < l.length) (hr : r < m) :
    ((l.enumFrom s).flatMap fun p => g p.1 p.2)[m * j + r]? =
      (g (s + j) (l.getD j dfl))[r]? := by
  induction l generalizing s j with
  | nil => exact absurd hj (Nat.not_lt_zero j)
  | cons a t ih =>
    cases j with
    | zero =>
      simp only [List.enumFrom_cons, List.flatMap_cons]
      rw [Nat.mul_zero, Nat.zero_add]
      rw [List.getElem?_append_left (by rw [hglen]; exact hr)]
      simp
    | succ j2 =>
      simp only [List.enumFrom_cons, List.flatMap_cons]
      have hlen : (g s a).length = m := hglen s a
      rw [List.getElem?_append_right (by rw [hlen, Nat.mul_succ]; omega)]
      have hidx : m * (j2 + 1) + r - (g s a).length = m * j2 + r := by
        rw [hlen, Nat.mul_succ]; omega
      rw [hidx]
      have hrec := ih (s + 1) j2 (by simpa using hj)
      rw [hrec]
      have hs : s + 1 + j2 = s + (j2 + 1) := by omega
      rw [hs]
      simp

/-- The `enum` specialisation of `enumFrom_flatMap_getElem`. -/
theorem enum_flatMap_getElem {α γ : Type} (g : Nat → α → List γ) (m : Nat)
    (dfl : α) (l : List α) (j r : Nat)
    (hglen : ∀ j b, (g j b).length = m)
    (hj : j < l.length) (hr : r < m) :
    ((l.enum).flatMap fun p => g p.1 p.2)[m * j + r]? =
      (g j (l.getD j dfl))[r]? := by
  have h := enumFrom_flatMap_getElem g m dfl l 0 j r hglen hj hr
  rw [Nat.zero_add] at h
  exact h

/-- Element `i` of an `enum`-driven map. -/
theorem enum_map_getElem {α γ : Type} (f : Nat × α → γ) (dfl : α) (l : List α)
    (i : Nat) (hi : i < l.length) :
    ((l.enum).map f)[i]? = some (f (i, l.getD i dfl)) := by
  rw [List.getElem?_map, List.getElem?_enum, List.getElem?_eq_getElem hi]
  simp [List.getElem?_eq_getElem hi]

/-- `calc_centroids` has one entry per voxel of the axis. -/
theorem calc_centroids_length (pts : List ℚ) :
    (DoseBlock.calc_centroids pts).length = pts.length - 1 := by
  simp [DoseBlock.calc_centroids]

/-- Entry `i` of `calc_centroids` is the mean of the two bounding
coordinates. -/
theorem calc_centroids_getD (pts : List ℚ) (i : Nat) (hi : i < pts.length - 1) :
    (DoseBlock.calc_centroids pts).getD i 0 =
      (pts.getD i 0 + pts.getD (i + 1) 0) / 2 := by
  unfold DoseBlock.calc_centroids
  rw [List.getD_eq_getElem?_getD, List.getElem?_map, List.getElem?_range hi]
  rfl

/-! ## Claim C9 -/

/-- **C9**: `write_csv` emits, after the header row, exactly one row per
voxel in `voxel_idx` order (x fastest, then y, then z); the row of voxel
`(i,j,k)` carries the per-axis centroids `(coord[i] + coord[i+1]) / 2` and
the dose and uncertainty read at that same `voxel_idx`; and for the
single-voxel example the output is the header plus the one row
`(0.5, 0.5, 0.5, 5.0, 0.1)` (value-level model of
`0.5,0.5,0.5,5.0,0.1`). -/
theorem c9_csv_centroid_rows :
    (∀ (d : DoseBlock) (nx ny nz : Nat),
      d.xs.length = nx + 1 → d.ys.length = ny + 1 → d.zs.length = nz + 1 →
      ∀ i j k, i < nx → j < ny → k < nz →
      (d.write_csv).rows.length = d.num_voxels ∧
        (d.write_csv).rows[d.voxel_idx i j k]? =
          some ((d.xs.getD i 0 + d.xs.getD (i + 1) 0) / 2,
            (d.ys.getD j 0 + d.ys.getD (j + 1) 0) / 2,
            (d.zs.getD k 0 + d.zs.getD (k + 1) 0) / 2,
            d.doses.getD (d.voxel_idx i j k) 0,
            d.uncerts.getD (d.voxel_idx i j k) 0)) ∧
    singleVoxel.write_csv =
      { header := DoseBlock.csvHeader
        rows := [(1/2, 1/2, 1/2, 5, 1/10)] } := by
  constructor
  · intro d nx ny nz hx hy hz i j k hi hj hk
    have hcx : (DoseBlock.calc_centroids d.xs).length = nx := by
      rw [calc_centroids_length, hx]; omega
    have hcy : (DoseBlock.calc_centroids d.ys).length = ny := by
      rw [calc_centroids_length, hy]; omega
    have hcz : (DoseBlock.calc_centroids d.zs).length = nz := by
      rw [calc_centroids_length, hz]; omega
    have hinner : ∀ (k2 : Nat) (z : ℚ) (j2 : Nat) (y : ℚ),
        ((DoseBlock.calc_centroids d.xs).enum.map fun ix =>
          ((ix.2 : ℚ), y, z, d.doses.getD (d.voxel_idx ix.1 j2 k2) 0,
            d.uncerts.getD (d.voxel_idx ix.1 j2 k2) 0)).length = nx := by
      intro k2 z j2 y
      simp [hcx]
    have hmid : ∀ (k2 : Nat) (z : ℚ),
        ((DoseBlock.calc_centroids d.ys).enum.flatMap fun jy =>
          (DoseBlock.calc_centroids d.xs).enum.map fun ix =>
            ((ix.2 : ℚ), jy.2, z, d.doses.getD (d.voxel_idx ix.1 jy.1 k2) 0,
              d.uncerts.getD (d.voxel_idx ix.1 jy.1 k2) 0)).length = ny * nx := by
      intro k2 z
      have h2 := enumFrom_flatMap_length
        (fun j2 y => (DoseBlock.calc_centroids d.xs).enum.map fun ix =>
          ((ix.2 : ℚ), y, z, d.doses.getD (d.voxel_idx ix.1 j2 k2) 0,
            d.uncerts.getD (d.voxel_idx ix.1 j2 k2) 0))
        nx (DoseBlock.calc_centroids d.ys) 0 (fun j2 y => hinner k2 z j2 y)
      rw [hcy] at h2
      exact h2
    have hrowslen : (d.write_csv).rows.length = nz * (ny * nx) := by
      have h3 := enumFrom_flatMap_length
        (fun k2 z => (DoseBlock.calc_centroids d.ys).enum.flatMap fun jy =>
          (DoseBlock.calc_centroids d.xs).enum.map fun ix =>
            ((ix.2 : ℚ), jy.2, z, d.doses.getD (d.voxel_idx ix.1 jy.1 k2) 0,
              d.uncerts.getD (d.voxel_idx ix.1 jy.1 k2) 0))
        (ny * nx) (DoseBlock.calc_centroids d.zs) 0 hmid
      rw [hcz] at h3
      exact h3
    have hnv : d.num_voxels = nz * (ny * nx) := by
      have e1 : d.num_x = nx := by simp [DoseBlock.num_x, hx]
      have e2 : d.num_y = ny := by simp [DoseBlock.num_y, hy]
      have e3 : d.num_z = nz := by simp [DoseBlock.num_z, hz]
      rw [DoseBlock.num_voxels, e1, e2, e3]; ring
    refine ⟨by rw [hrowslen, hnv], ?_⟩
    have hidx : d.voxel_idx i j k = ny * nx * k + (nx * j + i) := by
      have e1 : d.num_x = nx := by simp [DoseBlock.num_x, hx]
      have e2 : d.num_y = ny := by simp [DoseBlock.num_y, hy]
      rw [DoseBlock.voxel_idx, e1, e2]; ring
    have hr2 : nx * j + i < ny * nx := by
      have e1 : nx * (j + 1) = nx * j + nx := Nat.mul_succ nx j
      have e2 : nx * (j + 1) ≤ nx * ny := Nat.mul_le_mul (Nat.le_refl nx) (by omega)
      have e3 : nx * ny = ny * nx := Nat.mul_comm nx ny
      omega
    have hstep1 : (d.write_csv).rows[ny * nx * k + (nx * j + i)]? =
        ((DoseBlock.calc_centroids d.ys).enum.flatMap fun jy =>
          (DoseBlock.calc_centroids d.xs).enum.map fun ix =>
            ((ix.2 : ℚ), jy.2, (DoseBlock.calc_centroids d.zs).getD k 0,
              d.doses.getD (d.voxel_idx ix.1 jy.1 k) 0,
              d.uncerts.getD (d.voxel_idx ix.1 jy.1 k) 0))[nx * j + i]? :=
      enum_flatMap_getElem
        (fun k2 z => (DoseBlock.calc_centroids d.ys).enum.flatMap fun jy =>
          (DoseBlock.calc_centroids d.xs).enum.map fun ix =>
            ((ix.2 : ℚ), jy.2, z, d.doses.getD (d.voxel_idx ix.1 jy.1 k2) 0,
              d.uncerts.getD (d.voxel_idx ix.1 jy.1 k2) 0))
        (ny * nx) 0 (DoseBlock.calc_centroids d.zs) k (nx * j + i) hmid
        (by omega) hr2
    have hstep2 : ((DoseBlock.calc_centroids d.ys).enum.flatMap fun jy =>
          (DoseBlock.calc_centroids d.xs).enum.map fun ix =>
            ((ix.2 : ℚ), jy.2, (DoseBlock.calc_centroids d.zs).getD k 0,
              d.doses.getD (d.voxel_idx ix.1 jy.1 k) 0,
              d.uncerts.getD (d.voxel_idx ix.1 jy.1 k) 0))[nx * j + i]? =
        ((DoseBlock.calc_centroids d.xs).enum.map fun ix =>
          ((ix.2 : ℚ), (DoseBlock.calc_centroids d.ys).getD j 0,
            (DoseBlock.calc_centroids d.zs).getD k 0,
            d.doses.getD (d.voxel_idx ix.1 j k) 0,
            d.uncerts.getD (d.voxel_idx ix.1 j k) 0))[i]? :=
      enum_flatMap_getElem
        (fun j2 y => (DoseBlock.calc_centroids d.xs).enum.map fun ix =>
          ((ix.2 : ℚ), y, (DoseBlock.calc_centroids d.zs).getD k 0,
            d.doses.getD (d.voxel_idx ix.1 j2 k) 0,
            d.uncerts.getD (d.voxel_idx ix.1 j2 k) 0))
        nx 0 (DoseBlock.calc_centroids d.ys) j i
        (fun j2 y => hinner k ((DoseBlock.calc_centroids d.zs).getD k 0) j2 y)
        (by omega) (by omega)
    have hstep3 : ((DoseBlock.calc_centroids d.xs).enum.map fun ix =>
          ((ix.2 : ℚ), (DoseBlock.calc_centroids d.ys).getD j 0,
            (DoseBlock.calc_centroids d.zs).getD k 0,
            d.doses.getD (d.voxel_idx ix.1 j k) 0,
            d.uncerts.getD (d.voxel_idx ix.1 j k) 0))[i]? =
        some ((DoseBlock.calc_centroids d.xs).getD i 0,
          (DoseBlock.calc_centroids d.ys).getD j 0,
          (DoseBlock.calc_centroids d.zs).getD k 0,
          d.doses.getD (d.voxel_idx i j k) 0,
          d.uncerts.getD (d.voxel_idx i j k) 0) :=
      enum_map_getElem
        (fun ix => ((ix.2 : ℚ), (DoseBlock.calc_centroids d.ys).getD j 0,
          (DoseBlock.calc_centroids d.zs).getD k 0,
          d.doses.getD (d.voxel_idx ix.1 j k) 0,
          d.uncerts.getD (d.voxel_idx ix.1 j k) 0))
        0 (DoseBlock.calc_centroids d.xs) i (by omega)
    rw [hidx, hstep1, hstep2, hstep3,
      calc_centroids_getD d.xs i (by omega),
      calc_centroids_getD d.ys j (by omega),
      calc_centroids_getD d.zs k (by omega), hidx]
  · show DoseBlock.write_csv singleVoxel = _
    norm_num [DoseBlock.write_csv, DoseBlock.calc_centroids, singleVoxel,
      DoseBlock.voxel_idx, DoseBlock.num_x, DoseBlock.num_y, List.range_succ]

/-- Witness for C9: the single-voxel grid, voxel `(0,0,0)`. -/
theorem c9_csv_centroid_rows_witness :
    (singleVoxel.write_csv).rows.length = singleVoxel.num_voxels ∧
      (singleVoxel.write_csv).rows[singleVoxel.voxel_idx 0 0 0]? =
        some ((singleVoxel.xs.getD 0 0 + singleVoxel.xs.getD 1 0) / 2,
          (singleVoxel.ys.getD 0 0 + singleVoxel.ys.getD 1 0) / 2,
          (singleVoxel.zs.getD 0 0 + singleVoxel.zs.getD 1 0) / 2,
          singleVoxel.doses.getD (singleVoxel.voxel_idx 0 0 0) 0,
          singleVoxel.uncerts.getD (singleVoxel.voxel_idx 0 0 0) 0) :=
  c9_csv_centroid_rows.1 singleVoxel 1 1 1 rfl rfl rfl 0 0 0
    (by decide) (by decide) (by decide)
